import Mathlib

set_option linter.unusedVariables false

/-! Formal model of the jocko broker (jocko/broker.go): the partition
assignment algorithm, the request handlers, the controller's topic creation
path, and the partition role machine, together with theorems about their
behaviour.  Go machine integers are modelled as `Int` (with any relevant
wrap-around made explicit), fallible operations by explicit failure flags or
`Option`, and in-place mutation by explicit state passing. -/

/-- Protocol error kinds signalled by the broker, with their wire codes
(protocol package). -/
inductive KErr
  | ErrNone
  | ErrUnknown
  | ErrOffsetOutOfRange
  | ErrUnknownTopicOrPartition
  | ErrNotLeaderForPartition
  | ErrReplicaNotAvailable
  | ErrTopicAlreadyExists
  | ErrInvalidReplicationFactor
  | ErrNotController
  deriving DecidableEq

/-- Wire code of each protocol error (protocol.Error.Code()). -/
def KErr.code : KErr → Int
  | .ErrNone => 0
  | .ErrUnknown => -1
  | .ErrOffsetOutOfRange => 1
  | .ErrUnknownTopicOrPartition => 3
  | .ErrNotLeaderForPartition => 6
  | .ErrReplicaNotAvailable => 9
  | .ErrTopicAlreadyExists => 36
  | .ErrInvalidReplicationFactor => 38
  | .ErrNotController => 41

/-- Model of a partition commit log (commitlog package): its offset bounds,
plus flags standing for a possible I/O failure of each fallible operation the
broker code calls on it. -/
structure CommitLog where
  oldestOffset : Int
  newestOffset : Int
  appendFails : Bool := false
  truncateFails : Bool := false
  deriving DecidableEq

/-- commitlog Truncate: discards the suffix above the target offset, so that
afterwards NewestOffset ≤ target. -/
def CommitLog.truncate (l : CommitLog) (target : Int) : CommitLog :=
  { l with newestOffset := min l.newestOffset target }

/-- A record set handed to Produce; the log-end offset advances by the number
of records it carries. -/
structure RecordSet where
  count : Int := 1
  deriving DecidableEq

/-- commitlog Append: returns the base offset of the appended set and the
grown log. -/
def CommitLog.append (l : CommitLog) (rs : RecordSet) : Option (Int × CommitLog) :=
  if l.appendFails then none
  else some (l.newestOffset, { l with newestOffset := l.newestOffset + rs.count })

/-- A follower-side replicator handle (Replicator).  `leader` is the broker id
of the connection target passed to NewReplicator; `started` records whether
Replicate() has been invoked; `closeFails` stands for a possible error from
Close(). -/
structure Replicator where
  leader : Int
  started : Bool := false
  closeFails : Bool := false
  deriving DecidableEq

/-- Replicator.Replicate(): starts the fetch loop. -/
def Replicator.replicate (r : Replicator) : Replicator :=
  { r with started := true }

/-- structs.Partition: the partition metadata row kept on each replica. -/
structure Partition where
  topic : String
  id : Int
  partition : Int
  leader : Int
  ar : List Int
  isr : List Int
  controllerEpoch : Int := 0
  leaderEpoch : Int := 0
  deriving DecidableEq

/-- The local runtime Replica object. -/
structure Replica where
  brokerID : Int
  partition : Partition
  isLocal : Bool := false
  log : CommitLog
  hw : Int := 0
  leo : Int := 0
  replicator : Option Replicator := none
  deriving DecidableEq

/-- protocol.PartitionState, one entry of a LeaderAndISR request. -/
structure PartitionState where
  topic : String
  partition : Int
  leader : Int
  leaderEpoch : Int := 0
  isr : List Int := []
  replicas : List Int := []
  zkVersion : Int := 0
  deriving DecidableEq

/-- The part of config.BrokerConfig the modelled code reads. -/
structure BrokerCfg where
  id : Int
  devMode : Bool := false
  deriving DecidableEq

/-- Broker.becomeFollower: close any current replicator (an error aborts with
ErrUnknown), take hw := Log.NewestOffset(), truncate the log to hw (an error
aborts with ErrUnknown), install a new replicator whose connection targets
cmd.Leader, and call Replicate() on it unless dev mode is set. -/
def becomeFollower (b : BrokerCfg) (replica : Replica) (cmd : PartitionState) :
    Replica × KErr :=
  let cont : Replica → Replica × KErr := fun r =>
    let hw := r.log.newestOffset
    if r.log.truncateFails then (r, KErr.ErrUnknown)
    else
      let log' := r.log.truncate hw
      let repl : Replicator := { leader := cmd.leader }
      let repl := if b.devMode then repl else repl.replicate
      ({ r with log := log', replicator := some repl }, KErr.ErrNone)
  match replica.replicator with
  | some rep => if rep.closeFails then (replica, KErr.ErrUnknown) else cont replica
  | none => cont replica

/-- Broker.becomeLeader: close and clear any current replicator (an error
aborts with ErrUnknown), then set the stored partition metadata from the
command: Leader, AR, ISR, and LeaderEpoch (the latter from cmd.ZKVersion). -/
def becomeLeader (b : BrokerCfg) (replica : Replica) (cmd : PartitionState) :
    Replica × KErr :=
  let update : Replica → Replica := fun r =>
    { r with replicator := none,
             partition := { r.partition with
               leader := cmd.leader, ar := cmd.replicas, isr := cmd.isr,
               leaderEpoch := cmd.zkVersion } }
  match replica.replicator with
  | some rep =>
      if rep.closeFails then (replica, KErr.ErrUnknown)
      else (update replica, KErr.ErrNone)
  | none => (update replica, KErr.ErrNone)

/-- Whether closing the replica's current replicator (if any) succeeds. -/
def replicatorCloseOk (r : Replica) : Bool :=
  match r.replicator with
  | some rep => !rep.closeFails
  | none => true

/-- C3: whenever a LeaderAndISR PartitionState directs a local replica to
become a follower, the broker stops any running replicator, computes HW as the
NewestOffset of the local log, truncates the local log to that HW, installs a
new Replicator targeting the PartitionState's leader, and starts the
replicator if and only if dev mode is not set; ErrNone is returned exactly
when all these steps succeed. -/
theorem becomeFollower_spec (b : BrokerCfg) (replica : Replica) (cmd : PartitionState) :
    ((becomeFollower b replica cmd).2 = KErr.ErrNone ↔
      (replicatorCloseOk replica = true ∧ replica.log.truncateFails = false)) ∧
    ((becomeFollower b replica cmd).2 = KErr.ErrNone →
      (becomeFollower b replica cmd).1.log =
          replica.log.truncate replica.log.newestOffset ∧
      (becomeFollower b replica cmd).1.replicator =
          some { leader := cmd.leader, started := !b.devMode, closeFails := false }) := by
  rcases hr : replica.replicator with _ | rep <;>
    rcases hd : b.devMode <;>
    rcases ht : replica.log.truncateFails <;>
    simp [becomeFollower, replicatorCloseOk, Replicator.replicate, hr, hd, ht] <;>
    (try (rcases hc : rep.closeFails <;> simp [hc]))

/-- Witness for `becomeFollower_spec` at a concrete input. -/
theorem becomeFollower_spec_witness :
    (becomeFollower { id := 1 }
      { brokerID := 2,
        partition := { topic := "t", id := 0, partition := 0, leader := 3,
                       ar := [3, 2], isr := [3, 2] },
        log := { oldestOffset := 0, newestOffset := 5 } }
      { topic := "t", partition := 0, leader := 1 }).2 = KErr.ErrNone :=
  (becomeFollower_spec _ _ _).1.mpr (by constructor <;> rfl)

/-- C10: becomeFollower leaves the replica's stored partition metadata
(Leader, AR, ISR, LeaderEpoch and the rest of the partition row) unchanged on
every invocation, as well as the broker id and locality flag; among the role
transitions only becomeLeader updates those metadata fields, setting them from
the incoming PartitionState. -/
theorem becomeFollower_frame (b : BrokerCfg) (replica : Replica) (cmd : PartitionState) :
    (becomeFollower b replica cmd).1.partition = replica.partition ∧
    (becomeFollower b replica cmd).1.brokerID = replica.brokerID ∧
    (becomeFollower b replica cmd).1.isLocal = replica.isLocal ∧
    ((becomeLeader b replica cmd).2 = KErr.ErrNone →
      (becomeLeader b replica cmd).1.partition.leader = cmd.leader ∧
      (becomeLeader b replica cmd).1.partition.ar = cmd.replicas ∧
      (becomeLeader b replica cmd).1.partition.isr = cmd.isr ∧
      (becomeLeader b replica cmd).1.partition.leaderEpoch = cmd.zkVersion) := by
  rcases hr : replica.replicator with _ | rep <;>
    rcases ht : replica.log.truncateFails <;>
    simp [becomeFollower, becomeLeader, hr, ht] <;>
    (try (rcases hc : rep.closeFails <;> simp [hc]))

/-- Witness for `becomeFollower_frame` at a concrete input. -/
theorem becomeFollower_frame_witness :
    (becomeFollower { id := 1 }
      { brokerID := 2,
        partition := { topic := "t", id := 0, partition := 0, leader := 3,
                       ar := [3, 2], isr := [3, 2] },
        log := { oldestOffset := 0, newestOffset := 5 } }
      { topic := "t", partition := 0, leader := 1 }).1.partition =
    ({ topic := "t", id := 0, partition := 0, leader := 3,
       ar := [3, 2], isr := [3, 2] } : Partition) :=
  (becomeFollower_frame _ _ _).1

/-- One partition entry of an OffsetsRequest. -/
structure OffsetsPartitionReq where
  partition : Int
  timestamp : Int
  deriving DecidableEq

/-- One topic entry of an OffsetsRequest. -/
structure OffsetsTopicReq where
  topic : String
  partitions : List OffsetsPartitionReq
  deriving DecidableEq

/-- protocol.PartitionResponse as filled in by handleOffsets.  The error code
defaults to the Go zero value 0 (= ErrNone) since the success path never sets
it. -/
structure PartitionResponse where
  partition : Int
  errorCode : Int := 0
  offsets : List Int := []
  deriving DecidableEq

/-- protocol.OffsetResponse: the per-topic group of partition responses. -/
structure OffsetResponse where
  topic : String
  partitionResponses : List PartitionResponse
  deriving DecidableEq

/-- The body of handleOffsets' inner loop.  When the replica lookup fails the
Go code sets ErrUnknown on a freshly built PartitionResponse but then hits
`continue` before the `append`, so nothing is emitted for that partition;
`none` models that silent omission.  Otherwise the single returned offset is
OldestOffset when the timestamp is the sentinel -2 and NewestOffset
otherwise. -/
def offsetsPartition (lookup : String → Int → Option Replica) (topic : String)
    (p : OffsetsPartitionReq) : Option PartitionResponse :=
  match lookup topic p.partition with
  | none => none
  | some replica =>
    let offset :=
      if p.timestamp = -2 then replica.log.oldestOffset else replica.log.newestOffset
    some { partition := p.partition, errorCode := KErr.ErrNone.code,
           offsets := [offset] }

/-- Broker.handleOffsets over the request's topic list, with the replica
registry abstracted as a lookup function. -/
def handleOffsets (lookup : String → Int → Option Replica)
    (topics : List OffsetsTopicReq) : List OffsetResponse :=
  topics.map fun t =>
    { topic := t.topic,
      partitionResponses := t.partitions.filterMap (offsetsPartition lookup t.topic) }

/-- C6: for every partition entry of an OffsetsRequest whose replica exists
locally, the response holds exactly one offset: the log's OldestOffset when
the entry's timestamp equals the sentinel -2, and the log's NewestOffset for
any other timestamp. -/
theorem handleOffsets_sentinel (lookup : String → Int → Option Replica)
    (topics : List OffsetsTopicReq) (t : OffsetsTopicReq) (p : OffsetsPartitionReq)
    (replica : Replica) (htop : t ∈ topics)
    (hrep : lookup t.topic p.partition = some replica) (hp : p ∈ t.partitions) :
    ∃ resp ∈ handleOffsets lookup topics,
      resp.topic = t.topic ∧
      ({ partition := p.partition, errorCode := KErr.ErrNone.code,
         offsets := [if p.timestamp = -2 then replica.log.oldestOffset
                     else replica.log.newestOffset] } : PartitionResponse)
        ∈ resp.partitionResponses := by
  refine ⟨{ topic := t.topic,
            partitionResponses := t.partitions.filterMap (offsetsPartition lookup t.topic) },
          List.mem_map.mpr ⟨t, htop, rfl⟩, rfl, ?_⟩
  exact List.mem_filterMap.mpr ⟨p, hp, by simp [offsetsPartition, hrep]⟩

/-- Witness for `handleOffsets_sentinel` at a concrete input. -/
theorem handleOffsets_sentinel_witness :
    ∃ resp ∈ handleOffsets
        (fun tn p => if tn = "t" ∧ p = 0
          then some { brokerID := 1,
                      partition := { topic := "t", id := 0, partition := 0,
                                     leader := 1, ar := [1], isr := [1] },
                      log := { oldestOffset := 0, newestOffset := 5 } }
          else none)
        [{ topic := "t", partitions := [{ partition := 0, timestamp := -2 }] }],
      resp.topic = "t" ∧
      ({ partition := 0, errorCode := KErr.ErrNone.code, offsets := [0] } :
        PartitionResponse) ∈ resp.partitionResponses := by
  have h := handleOffsets_sentinel
    (fun tn p => if tn = "t" ∧ p = 0
      then some { brokerID := 1,
                  partition := { topic := "t", id := 0, partition := 0,
                                 leader := 1, ar := [1], isr := [1] },
                  log := { oldestOffset := 0, newestOffset := 5 } }
      else none)
    [{ topic := "t", partitions := [{ partition := 0, timestamp := -2 }] }]
    { topic := "t", partitions := [{ partition := 0, timestamp := -2 }] }
    { partition := 0, timestamp := -2 }
    { brokerID := 1,
      partition := { topic := "t", id := 0, partition := 0,
                     leader := 1, ar := [1], isr := [1] },
      log := { oldestOffset := 0, newestOffset := 5 } }
    (by simp) (by simp) (by simp)
  simpa using h

/-- C9: in handleOffsets, a partition whose local replica lookup fails is
silently omitted: no PartitionResponse for it appears in the per-topic
response at all, and in fact every emitted PartitionResponse carries ErrNone
(the error-coded response the code builds is never appended). -/
theorem handleOffsets_omits_failed_lookup (lookup : String → Int → Option Replica)
    (topics : List OffsetsTopicReq) (t : OffsetsTopicReq) (q : Int)
    (htop : t ∈ topics) (hmiss : lookup t.topic q = none) :
    (∀ resp ∈ handleOffsets lookup topics, resp.topic = t.topic →
      ∀ pr ∈ resp.partitionResponses, pr.partition ≠ q) ∧
    (∀ resp ∈ handleOffsets lookup topics,
      ∀ pr ∈ resp.partitionResponses, pr.errorCode = KErr.ErrNone.code) := by
  constructor
  · intro resp hresp heq pr hpr
    rcases List.mem_map.mp hresp with ⟨t', ht', rfl⟩
    rcases List.mem_filterMap.mp hpr with ⟨p', hp', hsome⟩
    simp only at heq hpr
    unfold offsetsPartition at hsome
    rcases hl : lookup t'.topic p'.partition with _ | r
    · rw [hl] at hsome; cases hsome
    · rw [hl] at hsome
      simp only [Option.some.injEq] at hsome
      intro hcontra
      rw [← hsome] at hcontra
      simp only at hcontra
      rw [heq, hcontra] at hl
      rw [hl] at hmiss
      cases hmiss
  · intro resp hresp pr hpr
    rcases List.mem_map.mp hresp with ⟨t', ht', rfl⟩
    rcases List.mem_filterMap.mp hpr with ⟨p', hp', hsome⟩
    unfold offsetsPartition at hsome
    rcases hl : lookup t'.topic p'.partition with _ | r
    · rw [hl] at hsome; cases hsome
    · rw [hl] at hsome
      simp only [Option.some.injEq] at hsome
      rw [← hsome]

/-- Witness for `handleOffsets_omits_failed_lookup` at a concrete input: the
lookup misses partition 0 and hits partition 1, and the emitted response for
partition 1 is concretely shown distinct from the omitted partition 0. -/
theorem handleOffsets_omits_failed_lookup_witness :
    ({ partition := 1, errorCode := KErr.ErrNone.code, offsets := [5] } :
      PartitionResponse).partition ≠ 0 :=
  (handleOffsets_omits_failed_lookup
    (fun tn p => if p = 1
      then some { brokerID := 1,
                  partition := { topic := "t", id := 1, partition := 1,
                                 leader := 1, ar := [1], isr := [1] },
                  log := { oldestOffset := 0, newestOffset := 5 } }
      else none)
    [{ topic := "t", partitions := [{ partition := 0, timestamp := -2 },
                                    { partition := 1, timestamp := 0 }] }]
    { topic := "t", partitions := [{ partition := 0, timestamp := -2 },
                                   { partition := 1, timestamp := 0 }] } 0
    (by decide) (by decide)).1
    { topic := "t",
      partitionResponses :=
        [{ partition := 1, errorCode := KErr.ErrNone.code, offsets := [5] }] }
    (by decide) rfl
    { partition := 1, errorCode := KErr.ErrNone.code, offsets := [5] }
    (by decide)

/-- fsm GetTopic result: `Except.error` models a lookup error, `Except.ok
none` a missing topic. -/
structure TopicRec where
  topic : String
  partitions : List (Int × List Int) := []
  deriving DecidableEq

/-- The replica registry (replicaLookup), keyed by (topic, partition). -/
abbrev ReplicaStore := List ((String × Int) × Replica)

/-- replicaLookup.Replica lookup. -/
def storeGet (s : ReplicaStore) (t : String) (p : Int) : Option Replica :=
  (s.find? fun e => e.1.1 == t && e.1.2 == p).map (·.2)

/-- In-place mutation of the stored replica for (t, p). -/
def storeSet (s : ReplicaStore) (t : String) (p : Int) (r : Replica) : ReplicaStore :=
  s.map fun e => if e.1.1 == t && e.1.2 == p then (e.1, r) else e

/-- One partition entry of a ProduceRequest (protocol.Data). -/
structure ProducePartitionData where
  partition : Int
  recordSet : RecordSet
  deriving DecidableEq

/-- One topic entry of a ProduceRequest (protocol.TopicData). -/
structure TopicData where
  topic : String
  data : List ProducePartitionData
  deriving DecidableEq

/-- protocol.ProducePartitionResponse; unset fields keep the Go zero value. -/
structure ProducePartitionResponse where
  partition : Int := 0
  errorCode : Int := 0
  baseOffset : Int := 0
  deriving DecidableEq

/-- protocol.ProduceResponse. -/
structure ProduceResponse where
  topic : String
  partitionResponses : List ProducePartitionResponse
  deriving DecidableEq

/-- The body of handleProduce's inner loop: look up the topic in the FSM
(error → ErrUnknown; nil → ErrUnknownTopicOrPartition), then the local replica
(miss → ErrReplicaNotAvailable), then append the record set to the replica's
log (failure → ErrUnknown; success → base offset).  The Go code performs no
leadership check on this path.  Returns the response together with the store,
whose replica log has grown on success. -/
def produceEntry (b : BrokerCfg) (getTopic : String → Except Unit (Option TopicRec))
    (store : ReplicaStore) (topic : String) (p : ProducePartitionData) :
    ProducePartitionResponse × ReplicaStore :=
  match getTopic topic with
  | .error _ => ({ errorCode := KErr.ErrUnknown.code }, store)
  | .ok none => ({ errorCode := KErr.ErrUnknownTopicOrPartition.code }, store)
  | .ok (some _) =>
    match storeGet store topic p.partition with
    | none =>
        ({ partition := p.partition, errorCode := KErr.ErrReplicaNotAvailable.code },
         store)
    | some replica =>
      match replica.log.append p.recordSet with
      | none => ({ errorCode := KErr.ErrUnknown.code }, store)
      | some (offset, log') =>
          ({ partition := p.partition, errorCode := KErr.ErrNone.code,
             baseOffset := offset },
           storeSet store topic p.partition { replica with log := log' })

/-- handleProduce's loop over one topic's partition data. -/
def producePartitions (b : BrokerCfg) (getTopic : String → Except Unit (Option TopicRec))
    (store : ReplicaStore) (topic : String) :
    List ProducePartitionData → List ProducePartitionResponse × ReplicaStore
  | [] => ([], store)
  | p :: rest =>
    let r := produceEntry b getTopic store topic p
    let o := producePartitions b getTopic r.2 topic rest
    (r.1 :: o.1, o.2)

/-- Broker.handleProduce over the request's topic-data list. -/
def handleProduce (b : BrokerCfg) (getTopic : String → Except Unit (Option TopicRec))
    (store : ReplicaStore) :
    List TopicData → List ProduceResponse × ReplicaStore
  | [] => ([], store)
  | td :: rest =>
    let r := producePartitions b getTopic store td.topic td.data
    let o := handleProduce b getTopic r.2 rest
    ({ topic := td.topic, partitionResponses := r.1 } :: o.1, o.2)

/-- Writing back a replica at a key that is present leaves it retrievable. -/
theorem storeGet_storeSet (s : ReplicaStore) (t : String) (p : Int)
    (r r' : Replica) (h : storeGet s t p = some r) :
    storeGet (storeSet s t p r') t p = some r' := by
  induction s with
  | nil => simp [storeGet] at h
  | cons e rest ih =>
    by_cases he : (e.1.1 == t && e.1.2 == p) = true
    · simp [storeGet, storeSet, List.find?, he]
    · simp only [Bool.not_eq_true] at he
      simp only [storeGet, storeSet, List.map] at h ⊢
      rw [if_neg (by simp [he])]
      rw [List.find?_cons] at h ⊢
      rw [he] at h ⊢
      exact ih h

/-- C2 (amended): for every (topic, partition) entry of a ProduceRequest the
handler looks up the topic and the local replica and rejects the entry with a
per-partition error code if the topic lookup errs or misses or the replica is
absent; otherwise it appends the record set to the replica's log and returns
the append's base offset.  Leadership is NOT checked: the outcome is the same
whatever `replica.partition.leader` is. -/
theorem handleProduce_spec (b : BrokerCfg)
    (getTopic : String → Except Unit (Option TopicRec)) (store : ReplicaStore)
    (topic : String) (p : ProducePartitionData) :
    (∀ T replica, getTopic topic = .ok (some T) →
      storeGet store topic p.partition = some replica →
      replica.log.appendFails = false →
      (produceEntry b getTopic store topic p).1 =
        { partition := p.partition, errorCode := KErr.ErrNone.code,
          baseOffset := replica.log.newestOffset } ∧
      storeGet (produceEntry b getTopic store topic p).2 topic p.partition =
        some { replica with
               log := { replica.log with
                        newestOffset := replica.log.newestOffset + p.recordSet.count } }) ∧
    (∀ T, getTopic topic = .ok (some T) →
      storeGet store topic p.partition = none →
      (produceEntry b getTopic store topic p).1 =
        { partition := p.partition, errorCode := KErr.ErrReplicaNotAvailable.code }) ∧
    (getTopic topic = .ok none →
      (produceEntry b getTopic store topic p).1 =
        { errorCode := KErr.ErrUnknownTopicOrPartition.code }) ∧
    (∀ e, getTopic topic = .error e →
      (produceEntry b getTopic store topic p).1 =
        { errorCode := KErr.ErrUnknown.code }) ∧
    (handleProduce b getTopic store [{ topic := topic, data := [p] }] =
      ([{ topic := topic,
          partitionResponses := [(produceEntry b getTopic store topic p).1] }],
       (produceEntry b getTopic store topic p).2)) := by
  refine ⟨?_, ?_, ?_, ?_, ?_⟩
  · intro T replica hT hrep happ
    have : (produceEntry b getTopic store topic p) =
        ({ partition := p.partition, errorCode := KErr.ErrNone.code,
           baseOffset := replica.log.newestOffset },
         storeSet store topic p.partition
           { replica with
             log := { replica.log with
                      newestOffset := replica.log.newestOffset + p.recordSet.count } }) := by
      simp [produceEntry, hT, hrep, CommitLog.append, happ]
    rw [this]
    exact ⟨rfl, storeGet_storeSet _ _ _ _ _ hrep⟩
  · intro T hT hrep
    simp [produceEntry, hT, hrep]
  · intro hT
    simp [produceEntry, hT]
  · intro e hT
    simp [produceEntry, hT]
  · simp [handleProduce, producePartitions]

/-- Witness for `handleProduce_spec` at a concrete input. -/
theorem handleProduce_spec_witness :
    (produceEntry { id := 1 } (fun _ => .ok (some { topic := "t" }))
      [(("t", 0),
        { brokerID := 1,
          partition := { topic := "t", id := 0, partition := 0, leader := 1,
                         ar := [1], isr := [1] },
          log := { oldestOffset := 0, newestOffset := 5 } })]
      "t" { partition := 0, recordSet := { count := 3 } }).1 =
    { partition := 0, errorCode := KErr.ErrNone.code, baseOffset := 5 } :=
  ((handleProduce_spec { id := 1 } (fun _ => .ok (some { topic := "t" }))
      [(("t", 0),
        { brokerID := 1,
          partition := { topic := "t", id := 0, partition := 0, leader := 1,
                         ar := [1], isr := [1] },
          log := { oldestOffset := 0, newestOffset := 5 } })]
      "t" { partition := 0, recordSet := { count := 3 } }).1
    { topic := "t" }
    { brokerID := 1,
      partition := { topic := "t", id := 0, partition := 0, leader := 1,
                     ar := [1], isr := [1] },
      log := { oldestOffset := 0, newestOffset := 5 } }
    rfl (by rfl) rfl).1

/-- C2 (counterexample to the claim as stated): a broker with id 1 that is NOT
the leader of ("t", 0) — the stored partition metadata names broker 2 as
leader — still accepts the produce entry: the per-partition response carries
ErrNone (code 0) and the append's base offset 5, instead of any rejection
error code. -/
theorem handleProduce_no_leader_check :
    ({ id := 1, devMode := false } : BrokerCfg).id ≠ (2 : Int) ∧
    (handleProduce { id := 1, devMode := false }
      (fun _ => .ok (some { topic := "t", partitions := [(0, [2, 1])] }))
      [(("t", 0),
        { brokerID := 1,
          partition := { topic := "t", id := 0, partition := 0, leader := 2,
                         ar := [2, 1], isr := [2, 1] },
          log := { oldestOffset := 0, newestOffset := 5 } })]
      [{ topic := "t", data := [{ partition := 0, recordSet := { count := 3 } }] }]).1 =
    [{ topic := "t",
       partitionResponses :=
         [{ partition := 0, errorCode := KErr.ErrNone.code, baseOffset := 5 }] }] := by
  constructor
  · decide
  · rfl

/-- metadata.Broker as returned by brokerLookup.Brokers(); only the id is
relevant to partition assignment.  Modelled from the spec: the member list is
presented in broker-id-sorted order (the brokerLookup component itself is not
among the modelled sources, and the spec fixes "broker-id-sorted order"). -/
structure BrokerMeta where
  id : Int
  deriving DecidableEq

/-- The follower-walk position update of buildPartitions: the Go loop body
ends with `if replica+1 == memCount { replica = -1 }` followed by the `++` of
the for statement, i.e. the candidate position wraps from memCount-1 back
to 0. -/
def nextPos (memCount p : Int) : Int :=
  if p + 1 = memCount then 0 else p + 1

/-- The follower-collection loop of buildPartitions: starting from candidate
position p, append every candidate different from `leader` to `acc` until
`acc` holds `rf` entries.  The Go for-loop is unbounded; it is modelled with
explicit fuel, and `buildPartitions` passes fuel 2*memCount, which the
theorems below prove sufficient whenever 1 ≤ rf ≤ memCount. -/
def collectReplicas (memCount leader rf : Int) : Nat → Int → List Int → List Int
  | 0, _, acc => acc
  | fuel+1, p, acc =>
    if (acc.length : Int) < rf then
      collectReplicas memCount leader rf fuel (nextPos memCount p)
        (if p = leader then acc else acc ++ [p])
    else acc

/-- Broker.buildPartitions.  `mems` is brokerLookup.Brokers() (id-sorted, see
`BrokerMeta`) and `rnd i` the value rand.Int31n(memCount) drawn for partition
i.  The leader of partition i is mems[i % memCount].ID; the walk then
collects further `replicas` entries starting from the random position.  (On
an empty member list the Go code panics with a division by zero; the model's
getD default is then irrelevant.) -/
def buildPartitions (mems : List BrokerMeta) (rnd : Nat → Int) (topic : String)
    (partitionsCount replicationFactor : Int) : List Partition :=
  let memCount : Int := mems.length
  (List.range partitionsCount.toNat).map fun i =>
    let leader := (mems.getD (i % mems.length) { id := 0 }).id
    let replicas := collectReplicas memCount leader replicationFactor
      (2 * memCount).toNat (rnd i) [leader]
    { topic := topic, id := (i : Int), partition := (i : Int), leader := leader,
      ar := replicas, isr := replicas }

/-- The sequence of candidate positions the walk visits: p, p+1, ...,
wrapping from memCount-1 to 0. -/
def posList (memCount : Int) : Int → Nat → List Int
  | _, 0 => []
  | p, k+1 => p :: posList memCount (nextPos memCount p) k

theorem posList_length (memCount : Int) :
    ∀ (k : Nat) (p : Int), (posList memCount p k).length = k := by
  intro k
  induction k with
  | zero => intro p; rfl
  | succ k ih => intro p; simp [posList, ih]

theorem nextPos_range (memCount p : Int) (h0 : 0 ≤ p) (h1 : p < memCount) :
    0 ≤ nextPos memCount p ∧ nextPos memCount p < memCount := by
  unfold nextPos
  split <;> omega

theorem posList_mem (memCount : Int) :
    ∀ (k : Nat) (p : Int), 0 ≤ p → p < memCount →
      ∀ x ∈ posList memCount p k, 0 ≤ x ∧ x < memCount := by
  intro k
  induction k with
  | zero => intro p _ _ x hx; simp [posList] at hx
  | succ k ih =>
    intro p h0 h1 x hx
    simp only [posList, List.mem_cons] at hx
    rcases hx with rfl | hx
    · exact ⟨h0, h1⟩
    · rcases nextPos_range memCount p h0 h1 with ⟨h0', h1'⟩
      exact ih (nextPos memCount p) h0' h1' x hx

/-- The walk equals the loop-free characterisation: run through the candidate
positions in order, drop the leader, and take entries until `rf` total
replicas (counting those already in `acc`) are reached. -/
theorem collectReplicas_eq (memCount leader rf : Int) :
    ∀ (fuel : Nat) (p : Int) (acc : List Int),
      collectReplicas memCount leader rf fuel p acc =
        acc ++ ((posList memCount p fuel).filter (fun x => x != leader)).take
          (rf - acc.length).toNat := by
  intro fuel
  induction fuel with
  | zero => intro p acc; simp [collectReplicas, posList]
  | succ fuel ih =>
    intro p acc
    by_cases hlt : (acc.length : Int) < rf
    · simp only [collectReplicas, if_pos hlt]
      by_cases hp : p = leader
      · rw [if_pos hp, ih]
        have hfilter : (posList memCount p (fuel+1)).filter (fun x => x != leader)
            = (posList memCount (nextPos memCount p) fuel).filter (fun x => x != leader) := by
          subst hp
          simp [posList, List.filter_cons]
        rw [hfilter]
      · rw [if_neg hp, ih]
        have hbne : (p != leader) = true := by simp [hp]
        have hfilter : (posList memCount p (fuel+1)).filter (fun x => x != leader)
            = p :: (posList memCount (nextPos memCount p) fuel).filter (fun x => x != leader) := by
          simp [posList, List.filter_cons, hbne]
        have htn : (rf - (acc.length : Int)).toNat
            = (rf - ((acc ++ [p]).length : Int)).toNat + 1 := by
          simp only [List.length_append, List.length_cons, List.length_nil]
          push_cast
          omega
        rw [hfilter, htn, List.take_succ_cons]
        simp
    · simp only [collectReplicas, if_neg hlt]
      have : (rf - acc.length).toNat = 0 := by omega
      rw [this, List.take_zero, List.append_nil]

/-- Splitting the walk: after k₁ steps from an in-range start the walk is at
some in-range position q and continues from there. -/
theorem posList_add (memCount : Int) :
    ∀ (k₁ k₂ : Nat) (p : Int), 0 ≤ p → p < memCount →
      ∃ q, 0 ≤ q ∧ q < memCount ∧
        posList memCount p (k₁ + k₂) =
          posList memCount p k₁ ++ posList memCount q k₂ := by
  intro k₁
  induction k₁ with
  | zero =>
    intro k₂ p h0 h1
    exact ⟨p, h0, h1, by simp [posList]⟩
  | succ k₁ ih =>
    intro k₂ p h0 h1
    rcases nextPos_range memCount p h0 h1 with ⟨h0', h1'⟩
    rcases ih k₂ (nextPos memCount p) h0' h1' with ⟨q, hq0, hq1, hq⟩
    refine ⟨q, hq0, hq1, ?_⟩
    have : k₁ + 1 + k₂ = (k₁ + k₂) + 1 := by omega
    rw [this]
    simp only [posList, hq, List.cons_append]

/-- One full period of the walk from an in-range start is the mod-memCount
arithmetic progression. -/
theorem posList_eq_map_range (memCount : Int) :
    ∀ (k : Nat) (p : Int), 0 ≤ p → p < memCount →
      posList memCount p k =
        (List.range k).map (fun j : Nat => (p + (j : Int)) % memCount) := by
  intro k
  induction k with
  | zero => intro p _ _; rfl
  | succ k ih =>
    intro p h0 h1
    rcases nextPos_range memCount p h0 h1 with ⟨h0', h1'⟩
    simp only [posList, ih (nextPos memCount p) h0' h1', List.range_succ_eq_map]
    rw [List.map_cons, List.map_map]
    congr 1
    · simpa using (Int.emod_eq_of_lt h0 h1).symm
    · apply List.map_congr_left
      intro j hj
      simp only [Function.comp]
      unfold nextPos
      by_cases hw : p + 1 = memCount
      · rw [if_pos hw]
        have he1 : p + ((Nat.succ j : Nat) : Int) = memCount + (j : Int) := by
          push_cast
          omega
        rw [he1, Int.add_emod memCount, Int.emod_self]
        simp [Int.emod_emod_of_dvd]
      · rw [if_neg hw]
        congr 1
        push_cast
        ring

/-- One full period of the walk visits pairwise distinct positions. -/
theorem posList_nodup (memCount : Int) (p : Int) (h0 : 0 ≤ p) (h1 : p < memCount) :
    (posList memCount p memCount.toNat).Nodup := by
  rw [posList_eq_map_range memCount memCount.toNat p h0 h1]
  apply List.Nodup.map_on
  · intro j1 hj1 j2 hj2 heq
    have hj1' : j1 < memCount.toNat := List.mem_range.mp hj1
    have hj2' : j2 < memCount.toNat := List.mem_range.mp hj2
    simp only at heq
    have hd : ((j1 : Int) - (j2 : Int)) % memCount = 0 := by
      have hsub : ((j1 : Int) - (j2 : Int)) = (p + (j1 : Int)) - (p + (j2 : Int)) := by
        ring
      rw [hsub, Int.sub_emod, heq, sub_self, Int.zero_emod]
    have hdvd : memCount ∣ ((j1 : Int) - (j2 : Int)) := Int.dvd_of_emod_eq_zero hd
    have habs : |((j1 : Int) - (j2 : Int))| < memCount := by
      rw [abs_lt]
      omega
    have := Int.eq_zero_of_abs_lt_dvd hdvd habs
    omega
  · exact List.nodup_range memCount.toNat

/-- Dropping one value from a list without duplicates loses at most one
entry. -/
theorem filter_ne_length_of_nodup (a : Int) :
    ∀ l : List Int, l.Nodup → l.length ≤ (l.filter (fun x => x != a)).length + 1 := by
  intro l
  induction l with
  | nil => simp
  | cons b rest ih =>
    intro hnd
    rcases List.nodup_cons.mp hnd with ⟨hb, hrest⟩
    by_cases hba : b = a
    · subst hba
      have hfeq : (b :: rest).filter (fun x => x != b)
          = rest.filter (fun x => x != b) := by
        simp [List.filter_cons]
      have hall : rest.filter (fun x => x != b) = rest := by
        refine List.filter_eq_self.mpr (fun x hx => ?_)
        rw [bne_iff_ne]
        intro hxb
        exact hb (hxb ▸ hx)
      rw [hfeq, hall]
      simp
    · have hbeq : (b != a) = true := by simp [hba]
      have hfeq : (b :: rest).filter (fun x => x != a)
          = b :: rest.filter (fun x => x != a) := by
        simp [List.filter_cons, hbeq]
      rw [hfeq]
      simp only [List.length_cons]
      have := ih hrest
      omega

/-- C1 (amended): for partitions built over N id-sorted members with
1 ≤ replication_factor ≤ N and in-range random starts, partition i's leader is
mems[i % N].id; its AR starts with the leader and continues with the first
replication_factor - 1 candidate POSITIONS — values in [0, N), not broker
ids — visited by the wrap-around walk from the random start, skipping any
position equal to the leader's id; |AR| = replication_factor; and ISR = AR. -/
theorem buildPartitions_spec (mems : List BrokerMeta) (rnd : Nat → Int)
    (topic : String) (partitionsCount replicationFactor : Int)
    (hsort : List.Pairwise (fun a b => a.id < b.id) mems)
    (hN : 0 < mems.length)
    (hrnd : ∀ i, 0 ≤ rnd i ∧ rnd i < (mems.length : Int))
    (hrf1 : 1 ≤ replicationFactor)
    (hrfN : replicationFactor ≤ (mems.length : Int))
    (i : Nat) (hi : i < partitionsCount.toNat) :
    ∃ P, (buildPartitions mems rnd topic partitionsCount replicationFactor)[i]? = some P ∧
      P.leader = (mems.getD (i % mems.length) { id := 0 }).id ∧
      P.isr = P.ar ∧
      (P.ar.length : Int) = replicationFactor ∧
      P.ar = P.leader ::
        (((posList (mems.length : Int) (rnd i) (2 * (mems.length : Int)).toNat).filter
            (fun x => x != P.leader)).take (replicationFactor - 1).toNat) ∧
      (∀ x ∈ P.ar.tail, 0 ≤ x ∧ x < (mems.length : Int) ∧ x ≠ P.leader) ∧
      P.id = (i : Int) ∧ P.topic = topic := by
  have hN' : 0 < ((mems.length : Nat) : Int) := by exact_mod_cast hN
  rcases hrnd i with ⟨hr0, hr1⟩
  have hchar : collectReplicas (mems.length : Int)
        (mems.getD (i % mems.length) { id := 0 }).id replicationFactor
        (2 * (mems.length : Int)).toNat (rnd i)
        [(mems.getD (i % mems.length) { id := 0 }).id]
      = (mems.getD (i % mems.length) { id := 0 }).id ::
        (((posList (mems.length : Int) (rnd i) (2 * (mems.length : Int)).toNat).filter
            (fun x => x != (mems.getD (i % mems.length) { id := 0 }).id)).take
          (replicationFactor - 1).toNat) := by
    rw [collectReplicas_eq]
    simp
  have hsplit : ∃ q, 0 ≤ q ∧ q < (mems.length : Int) ∧
      posList (mems.length : Int) (rnd i) (2 * (mems.length : Int)).toNat =
        posList (mems.length : Int) (rnd i) (mems.length : Int).toNat ++
        posList (mems.length : Int) q (mems.length : Int).toNat := by
    have h2 : (2 * (mems.length : Int)).toNat =
        (mems.length : Int).toNat + (mems.length : Int).toNat := by omega
    rw [h2]
    exact posList_add (mems.length : Int) (mems.length : Int).toNat
      (mems.length : Int).toNat (rnd i) hr0 hr1
  rcases hsplit with ⟨q, hq0, hq1, hq⟩
  have hflen : (replicationFactor - 1).toNat ≤
      ((posList (mems.length : Int) (rnd i) (2 * (mems.length : Int)).toNat).filter
        (fun x => x != (mems.getD (i % mems.length) { id := 0 }).id)).length := by
    rw [hq, List.filter_append, List.length_append]
    have hnd := posList_nodup (mems.length : Int) (rnd i) hr0 hr1
    have hle := filter_ne_length_of_nodup (mems.getD (i % mems.length) { id := 0 }).id
      (posList (mems.length : Int) (rnd i) (mems.length : Int).toNat) hnd
    rw [posList_length] at hle
    omega
  refine ⟨{ topic := topic, id := (i : Int), partition := (i : Int),
            leader := (mems.getD (i % mems.length) { id := 0 }).id,
            ar := collectReplicas (mems.length : Int)
                (mems.getD (i % mems.length) { id := 0 }).id replicationFactor
                (2 * (mems.length : Int)).toNat (rnd i)
                [(mems.getD (i % mems.length) { id := 0 }).id],
            isr := collectReplicas (mems.length : Int)
                (mems.getD (i % mems.length) { id := 0 }).id replicationFactor
                (2 * (mems.length : Int)).toNat (rnd i)
                [(mems.getD (i % mems.length) { id := 0 }).id] },
          ?_, rfl, rfl, ?_, ?_, ?_, rfl, rfl⟩
  · unfold buildPartitions
    simp [List.getElem?_map, List.getElem?_range hi]
  · rw [hchar]
    simp only [List.length_cons, List.length_take]
    rw [Nat.min_eq_left hflen]
    omega
  · exact hchar
  · rw [hchar]
    intro x hx
    simp only [List.tail_cons] at hx
    have hxf := List.take_subset _ _ hx
    rcases List.mem_filter.mp hxf with ⟨hxp, hxne⟩
    rcases posList_mem (mems.length : Int) (2 * (mems.length : Int)).toNat (rnd i)
        hr0 hr1 x hxp with ⟨hx0, hx1⟩
    exact ⟨hx0, hx1, bne_iff_ne.mp hxne⟩

/-- Witness for `buildPartitions_spec` at a concrete input. -/
theorem buildPartitions_spec_witness :
    List.Pairwise (fun a b => a.id < b.id)
        [({ id := 10 } : BrokerMeta), { id := 20 }] ∧
    ∃ P, (buildPartitions [{ id := 10 }, { id := 20 }] (fun _ => 0) "t" 1 2)[0]? = some P ∧
      P.leader = (([({ id := 10 } : BrokerMeta), { id := 20 }]).getD (0 % 2) { id := 0 }).id ∧
      P.isr = P.ar ∧
      (P.ar.length : Int) = 2 ∧
      P.ar = P.leader ::
        (((posList 2 0 (2 * (2 : Int)).toNat).filter (fun x => x != P.leader)).take
          ((2 : Int) - 1).toNat) ∧
      (∀ x ∈ P.ar.tail, 0 ≤ x ∧ x < (2 : Int) ∧ x ≠ P.leader) ∧
      P.id = 0 ∧ P.topic = "t" := by
  constructor
  · decide
  · have h := buildPartitions_spec [{ id := 10 }, { id := 20 }] (fun _ => 0) "t" 1 2
      (by decide) (by decide) (fun j => by norm_num)
      (by decide) (by decide) 0 (by decide)
    simpa using h

/-- C1 (counterexample to the claim as stated): on a 2-broker cluster with
ids 10 and 20 (id-sorted), replication factor 2 and random start offset 0,
partition 0 is assigned AR = [10, 0]: the non-leader replica entry 0 is a walk
position, not the broker id of any cluster member. -/
theorem buildPartitions_counterexample :
    ∃ P ∈ buildPartitions [{ id := 10 }, { id := 20 }] (fun _ => 0) "t" 1 2,
      P.ar = [10, 0] ∧ ∃ x ∈ P.ar.tail, ¬(x = 10 ∨ x = 20) := by
  decide

/-- The Go conversion int16(n): wrap-around into [-32768, 32768).  Applied by
handleCreateTopic to len(b.LANMembers()). -/
def toInt16 (n : Int) : Int := (n + 32768) % 65536 - 32768

/-- The Raft commands the controller path proposes via raftApply. -/
inductive RaftCmd
  | registerTopic (t : TopicRec)
  | registerPartition (p : Partition)
  | deregisterTopic (topic : String)
  deriving DecidableEq

/-- Outcome of createTopic: a returned protocol error, or a Go panic. -/
inductive CreateResult
  | ret (e : KErr)
  | panicked
  deriving DecidableEq

/-- The external collaborators createTopic reads: the FSM topic table (err is
ignored by createTopic, which only nil-checks), the outcomes of the raftApply
proposals, the broker list, the outcomes of the remote LeaderAndISR client
dispatches (keyed by target broker id), and the random source feeding
buildPartitions. -/
structure ControllerEnv where
  getTopic : String → Option TopicRec
  registerTopicFails : Bool := false
  registerPartitionFails : Int → Bool := fun _ => false
  deregisterTopicFails : String → Bool := fun _ => false
  brokers : List BrokerMeta := []
  dispatchFails : Int → Bool := fun _ => false
  rnd : Nat → Int := fun _ => 0

/-- The createPartition loop of createTopic: propose RegisterPartition for
each partition, stopping with failure at the first raftApply error. -/
def applyPartitions (env : ControllerEnv) : List Partition → Bool × List RaftCmd
  | [] => (true, [])
  | p :: rest =>
    if env.registerPartitionFails p.id then (false, [RaftCmd.registerPartition p])
    else
      let o := applyPartitions env rest
      (o.1, RaftCmd.registerPartition p :: o.2)

/-- The LeaderAndISR dissemination loop of createTopic.  For the local broker
the Go code panics unless the response's top-level ErrorCode is ErrNone; since
handleLeaderAndISR never assigns that field it keeps the Go zero value 0 =
ErrNone.Code(), so the guard (kept here verbatim) can never fire.  For a
remote broker any client error panics.  `false` models reaching a panic. -/
def dispatchLeaderAndISR (b : BrokerCfg) (env : ControllerEnv) : List BrokerMeta → Bool
  | [] => true
  | s :: rest =>
    if s.id = b.id then
      if KErr.ErrNone.code ≠ KErr.ErrNone.code then false
      else dispatchLeaderAndISR b env rest
    else if env.dispatchFails s.id then false
    else dispatchLeaderAndISR b env rest

/-- Broker.createTopic: reject an existing topic, build the partition
assignment, propose RegisterTopic then RegisterPartition for each partition
(any raftApply error returns ErrUnknown), then send LeaderAndISR to every
broker (a failed dispatch panics).  The second component lists the Raft
commands proposed along the way. -/
def createTopic (b : BrokerCfg) (env : ControllerEnv) (topic : String)
    (partitions replicationFactor : Int) : CreateResult × List RaftCmd :=
  match env.getTopic topic with
  | some _ => (.ret .ErrTopicAlreadyExists, [])
  | none =>
    let ps := buildPartitions env.brokers env.rnd topic partitions replicationFactor
    let tt : TopicRec := { topic := topic, partitions := ps.map fun p => (p.id, p.ar) }
    if env.registerTopicFails then (.ret .ErrUnknown, [RaftCmd.registerTopic tt])
    else
      let ap := applyPartitions env ps
      if !ap.1 then (.ret .ErrUnknown, RaftCmd.registerTopic tt :: ap.2)
      else if !dispatchLeaderAndISR b env env.brokers then
        (.panicked, RaftCmd.registerTopic tt :: ap.2)
      else (.ret .ErrNone, RaftCmd.registerTopic tt :: ap.2)

/-- protocol.CreateTopicRequest. -/
structure CreateTopicRequest where
  topic : String
  numPartitions : Int
  replicationFactor : Int
  deriving DecidableEq

/-- Per-request outcome inside handleCreateTopic's loop: rejected before
reaching createTopic, or createTopic invoked. -/
inductive PerTopicResult
  | rejected (code : Int)
  | invoked (res : CreateResult) (cmds : List RaftCmd)
  deriving DecidableEq

/-- The per-topic error code a PerTopicResult yields (none if it panicked). -/
def codeOfResult : PerTopicResult → Option Int
  | .rejected c => some c
  | .invoked (.ret e) _ => some e.code
  | .invoked .panicked _ => none

/-- One iteration of handleCreateTopic's loop: NotController for a
non-controller, InvalidReplicationFactor when the request's replication
factor exceeds int16(len(LANMembers())), otherwise createTopic. -/
def processCreateReq (b : BrokerCfg) (env : ControllerEnv) (isController : Bool)
    (lanCount : Int) (req : CreateTopicRequest) : PerTopicResult :=
  if !isController then .rejected KErr.ErrNotController.code
  else if req.replicationFactor > toInt16 lanCount then
    .rejected KErr.ErrInvalidReplicationFactor.code
  else
    let r := createTopic b env req.topic req.numPartitions req.replicationFactor
    .invoked r.1 r.2

/-- The observable outcome of Broker.handleCreateTopic: the per-topic error
codes of the response (none if a createTopic panic unwound the handler), the
Raft commands proposed, and the createTopic invocations made
(topic, partitions, replication factor). -/
structure CreateTopicsOutcome where
  codes : Option (List (String × Int))
  proposed : List RaftCmd
  calls : List (String × Int × Int)
  deriving DecidableEq

/-- Broker.handleCreateTopic; `isController` is b.isController(), read once
before the loop, and `lanCount` is len(b.LANMembers()). -/
def handleCreateTopic (b : BrokerCfg) (env : ControllerEnv) (isController : Bool)
    (lanCount : Int) : List CreateTopicRequest → CreateTopicsOutcome
  | [] => { codes := some [], proposed := [], calls := [] }
  | req :: rest =>
    match processCreateReq b env isController lanCount req with
    | .rejected c =>
      let o := handleCreateTopic b env isController lanCount rest
      { codes := o.codes.map (fun l => (req.topic, c) :: l),
        proposed := o.proposed, calls := o.calls }
    | .invoked (.ret e) cmds =>
      let o := handleCreateTopic b env isController lanCount rest
      { codes := o.codes.map (fun l => (req.topic, e.code) :: l),
        proposed := cmds ++ o.proposed,
        calls := (req.topic, req.numPartitions, req.replicationFactor) :: o.calls }
    | .invoked .panicked cmds =>
      { codes := none, proposed := cmds,
        calls := [(req.topic, req.numPartitions, req.replicationFactor)] }

/-- Broker.handleDeleteTopics: per topic, NotController for a non-controller;
otherwise propose DeregisterTopic, answering Unknown on a raftApply error and
ErrNone on success.  Second component: the proposed Raft commands. -/
def handleDeleteTopics (env : ControllerEnv) (isController : Bool) :
    List String → List (String × Int) × List RaftCmd
  | [] => ([], [])
  | t :: rest =>
    let o := handleDeleteTopics env isController rest
    if !isController then ((t, KErr.ErrNotController.code) :: o.1, o.2)
    else if env.deregisterTopicFails t then
      ((t, KErr.ErrUnknown.code) :: o.1, RaftCmd.deregisterTopic t :: o.2)
    else ((t, KErr.ErrNone.code) :: o.1, RaftCmd.deregisterTopic t :: o.2)

/-- C4: on a broker whose Raft is not leader, every per-topic error code of a
CreateTopics or DeleteTopics response is NotController, no topic is created or
deleted, and no Raft command is proposed. -/
theorem nonController_rejects (b : BrokerCfg) (env : ControllerEnv) (lanCount : Int)
    (reqs : List CreateTopicRequest) (topics : List String) :
    handleCreateTopic b env false lanCount reqs =
      { codes := some (reqs.map fun r => (r.topic, KErr.ErrNotController.code)),
        proposed := [], calls := [] } ∧
    handleDeleteTopics env false topics =
      (topics.map fun t => (t, KErr.ErrNotController.code), []) := by
  constructor
  · induction reqs with
    | nil => rfl
    | cons r rest ih => simp [handleCreateTopic, processCreateReq, ih]
  · induction topics with
    | nil => rfl
    | cons t rest ih => simp [handleDeleteTopics, ih]

/-- Indexing the assembled response codes: when the handler returns a
response, position i holds request i's topic and the code of its per-request
outcome. -/
theorem handleCreateTopic_codes_get (b : BrokerCfg) (env : ControllerEnv)
    (isController : Bool) (lanCount : Int) :
    ∀ (reqs : List CreateTopicRequest) (l : List (String × Int)),
      (handleCreateTopic b env isController lanCount reqs).codes = some l →
      ∀ (i : Nat) (hi : i < reqs.length),
        ∃ c, codeOfResult (processCreateReq b env isController lanCount
              (reqs.get ⟨i, hi⟩)) = some c ∧
          l[i]? = some ((reqs.get ⟨i, hi⟩).topic, c) := by
  intro reqs
  induction reqs with
  | nil =>
    intro l hl i hi
    exact absurd hi (by simp)
  | cons r rest ih =>
    intro l hl i hi
    rcases hp : processCreateReq b env isController lanCount r with c | ⟨res, cmds⟩
    · simp only [handleCreateTopic, hp] at hl
      rcases ho : (handleCreateTopic b env isController lanCount rest).codes with _ | l'
      · rw [ho] at hl
        simp at hl
      · rw [ho] at hl
        simp only [Option.map_some', Option.some.injEq] at hl
        subst hl
        cases i with
        | zero => exact ⟨c, by simp [hp, codeOfResult], by simp⟩
        | succ i =>
          have hi' : i < rest.length := by simpa using hi
          rcases ih l' ho i hi' with ⟨c', hc', hl'⟩
          exact ⟨c', by simpa using hc', by simpa using hl'⟩
    · rcases res with e | _
      · simp only [handleCreateTopic, hp] at hl
        rcases ho : (handleCreateTopic b env isController lanCount rest).codes with _ | l'
        · rw [ho] at hl
          simp at hl
        · rw [ho] at hl
          simp only [Option.map_some', Option.some.injEq] at hl
          subst hl
          cases i with
          | zero => exact ⟨e.code, by simp [hp, codeOfResult], by simp⟩
          | succ i =>
            have hi' : i < rest.length := by simpa using hi
            rcases ih l' ho i hi' with ⟨c', hc', hl'⟩
            exact ⟨c', by simpa using hc', by simpa using hl'⟩
      · simp only [handleCreateTopic, hp] at hl
        cases hl

/-- Every createTopic invocation the controller handler makes has replication
factor at most the live member count. -/
theorem handleCreateTopic_calls_le (b : BrokerCfg) (env : ControllerEnv)
    (lanCount : Int) (hm : 0 ≤ lanCount) :
    ∀ (reqs : List CreateTopicRequest),
      ∀ c ∈ (handleCreateTopic b env true lanCount reqs).calls, c.2.2 ≤ lanCount := by
  have h16 : toInt16 lanCount ≤ lanCount := by unfold toInt16; omega
  intro reqs
  induction reqs with
  | nil =>
    intro c hc
    simp [handleCreateTopic] at hc
  | cons r rest ih =>
    intro c hc
    by_cases hrf : r.replicationFactor > toInt16 lanCount
    · have hp : processCreateReq b env true lanCount r =
          .rejected KErr.ErrInvalidReplicationFactor.code := by
        unfold processCreateReq
        rw [if_neg (by simp), if_pos hrf]
      simp only [handleCreateTopic, hp] at hc
      exact ih c hc
    · have hp : processCreateReq b env true lanCount r =
          .invoked (createTopic b env r.topic r.numPartitions r.replicationFactor).1
            (createTopic b env r.topic r.numPartitions r.replicationFactor).2 := by
        unfold processCreateReq
        rw [if_neg (by simp), if_neg hrf]
      rcases hres : (createTopic b env r.topic r.numPartitions r.replicationFactor).1
        with e | _
      · simp only [handleCreateTopic, hp, hres] at hc
        rcases List.mem_cons.mp hc with rfl | hc'
        · show r.replicationFactor ≤ lanCount
          omega
        · exact ih c hc'
      · simp only [handleCreateTopic, hp, hres] at hc
        rcases List.mem_cons.mp hc with rfl | hc'
        · show r.replicationFactor ≤ lanCount
          omega
        · simp at hc'

/-- C5: when the controller handles a CreateTopicRequest whose replication
factor exceeds the live member count, that request's per-topic code in the
response is InvalidReplicationFactor and its topic is not created (createTopic
is not invoked for it); creation proceeds only when
replication_factor ≤ live member count, i.e. every createTopic invocation the
handler makes has replication factor ≤ the member count. -/
theorem handleCreateTopic_invalid_rf (b : BrokerCfg) (env : ControllerEnv)
    (lanCount : Int) (reqs : List CreateTopicRequest) (l : List (String × Int))
    (i : Nat) (hm : 0 ≤ lanCount)
    (hcodes : (handleCreateTopic b env true lanCount reqs).codes = some l)
    (hi : i < reqs.length)
    (hbig : (reqs.get ⟨i, hi⟩).replicationFactor > lanCount)
    (hrange : (reqs.get ⟨i, hi⟩).replicationFactor < 32768) :
    l[i]? = some ((reqs.get ⟨i, hi⟩).topic, KErr.ErrInvalidReplicationFactor.code) ∧
    ∀ c ∈ (handleCreateTopic b env true lanCount reqs).calls, c.2.2 ≤ lanCount := by
  have h16 : toInt16 lanCount = lanCount := by
    unfold toInt16
    omega
  have hrej : processCreateReq b env true lanCount (reqs.get ⟨i, hi⟩) =
      .rejected KErr.ErrInvalidReplicationFactor.code := by
    unfold processCreateReq
    rw [if_neg (by simp), if_pos (by omega)]
  constructor
  · rcases handleCreateTopic_codes_get b env true lanCount reqs l hcodes i hi
      with ⟨c, hc, hl⟩
    rw [hrej] at hc
    simp only [codeOfResult, Option.some.injEq] at hc
    rw [← hc] at hl
    exact hl
  · exact handleCreateTopic_calls_le b env lanCount hm reqs

/-- Witness for `handleCreateTopic_invalid_rf` at a concrete input. -/
theorem handleCreateTopic_invalid_rf_witness :
    (0 : Int) ≤ 1 ∧
    (([("t", KErr.ErrInvalidReplicationFactor.code)] : List (String × Int))[0]? =
        some ("t", KErr.ErrInvalidReplicationFactor.code) ∧
      ∀ c ∈ (handleCreateTopic { id := 1 } { getTopic := fun _ => none } true 1
          [{ topic := "t", numPartitions := 1, replicationFactor := 3 }]).calls,
        c.2.2 ≤ 1) := by
  refine ⟨by norm_num, ?_⟩
  have h := handleCreateTopic_invalid_rf { id := 1 } { getTopic := fun _ => none } 1
    [{ topic := "t", numPartitions := 1, replicationFactor := 3 }]
    [("t", KErr.ErrInvalidReplicationFactor.code)] 0 (by norm_num) (by rfl)
    (by norm_num) (by norm_num) (by norm_num)
  simpa using h

/-- C7: the controller path returns Unknown on a Raft apply failure, but a
failed remote LeaderAndISR dispatch during topic creation makes createTopic
panic instead of returning Unknown.  Evaluations at the failing input: broker
1 as controller, peers {1, 2}, the client dispatch to broker 2 failing —
createTopic panics; with RegisterTopic's raftApply failing instead, it
returns ErrUnknown as the spec states. -/
theorem createTopic_panics_on_dispatch_failure :
    (createTopic { id := 1 }
      { getTopic := fun _ => none,
        registerTopicFails := false,
        registerPartitionFails := fun _ => false,
        deregisterTopicFails := fun _ => false,
        brokers := [{ id := 1 }, { id := 2 }],
        dispatchFails := fun i => i == 2,
        rnd := fun _ => 0 } "t" 1 1).1 = CreateResult.panicked ∧
    (createTopic { id := 1 }
      { getTopic := fun _ => none,
        registerTopicFails := true,
        registerPartitionFails := fun _ => false,
        deregisterTopicFails := fun _ => false,
        brokers := [{ id := 1 }, { id := 2 }],
        dispatchFails := fun _ => false,
        rnd := fun _ => 0 } "t" 1 1).1 = CreateResult.ret KErr.ErrUnknown := by
  constructor <;> rfl

/-- protocol.RequestHeader: the fields Run reads. -/
structure RequestHeader where
  correlationID : Int
  clientID : String := ""
  deriving DecidableEq

/-- The closed set of typed request kinds Run's type switch matches on;
`other` stands for a body type with no case (e.g. StopReplicaRequest), for
which the switch leaves the `resp` variable unchanged. -/
inductive ReqKind
  | apiVersions
  | produce
  | fetch
  | offsets
  | metadata
  | createTopics
  | deleteTopics
  | leaderAndISR
  | other
  deriving DecidableEq

/-- A request consumed by Broker.Run: connection omitted, header plus the
kind of the decoded body. -/
structure RunRequest where
  header : RequestHeader
  kind : ReqKind
  deriving DecidableEq

/-- The Response Run emits: the originating correlation id plus the body the
handler produced (`none` when no case ever matched, i.e. the Go nil
ResponseBody). -/
structure RunResponse (β : Type) where
  correlationID : Int
  body : Option β

/-- The type switch of Run: each matched kind yields its handler's response;
an unmatched body yields nothing (the Go switch falls through, keeping the
previous `resp`). -/
def dispatchBody {β : Type} (handlers : ReqKind → β) : ReqKind → Option β
  | .other => none
  | k => some (handlers k)

/-- Broker.Run: consume requests in order; for each, run the matched
handler — an unmatched kind keeps the previous iteration's `resp` — and emit
a Response whose CorrelationID is the request header's CorrelationID. -/
def runLoop {β : Type} (handle : ReqKind → Option β) (last : Option β) :
    List RunRequest → List (RunResponse β)
  | [] => []
  | r :: rs =>
    let body := match handle r.kind with
      | some b => some b
      | none => last
    { correlationID := r.header.correlationID, body := body } :: runLoop handle body rs

/-- C8: Run emits one response per consumed request, and the response at every
position carries the CorrelationID of that position's request header, for any
handlers and any initial `resp` value. -/
theorem runLoop_correlation {β : Type} (handlers : ReqKind → β) (last : Option β)
    (reqs : List RunRequest) (i : Nat) :
    (runLoop (dispatchBody handlers) last reqs).length = reqs.length ∧
    ((runLoop (dispatchBody handlers) last reqs)[i]?).map
        (fun resp => resp.correlationID) =
      (reqs[i]?).map (fun r => r.header.correlationID) := by
  induction reqs generalizing last i with
  | nil => simp [runLoop]
  | cons r rs ih =>
    constructor
    · simp only [runLoop, List.length_cons]
      exact congrArg (· + 1) (ih _ 0).1
    · cases i with
      | zero => simp [runLoop]
      | succ i =>
        simp only [runLoop, List.getElem?_cons_succ]
        exact (ih _ i).2
